import Mathlib

/-!
Shallow embedding of the solar_position repository (dates.py, solar_motion.py,
search.py) and verification of its specification claims.

Conventions of the embedding:
- Python ints are modelled by ℤ.  On ℤ, the Lean operators / and % are
  Euclidean division and remainder, which agree with the Python floor
  division // and % whenever the divisor is positive; every divisor
  appearing in this code (4, 100, 400, 2, ...) is a positive literal.
- Python floats are modelled by ℚ (exact arithmetic).  Float floor
  division a // b is modelled by the integer floor of the exact quotient.
- Python strings are modelled by Lean String; str.split("-") is modelled
  by splitDash on the underlying character list, and int(s) by parseInt,
  which accepts optional surrounding whitespace, an optional sign and a
  nonempty run of decimal digits, exactly as the Python int constructor
  does on the strings arising here.
- A Python function that can raise (assert failures, ValueError from int
  parsing or from unpacking a tuple of the wrong arity, IndexError) is
  modelled as returning an Option, with none for the raising executions.
- The purely real-valued geometric pipeline of solar_motion.py
  (sun_vector, rot_axis, zenith: trigonometry over floats) is not
  representable in a discrete embedding; where a claim depends only on
  the discrete skeleton around it, that real-valued part is abstracted
  as an explicit oracle parameter (named geo or solve below), and every
  theorem about the surrounding code is proved for all oracles.
-/

/-! ### Character and string primitives (Python str/int behaviour) -/

/-- Whitespace stripped by the Python int constructor. -/
def isSpaceChar (c : Char) : Bool :=
  c == ' ' || c == '\t' || c == '\n'

/-- ASCII decimal digit test. -/
def isDigitChar (c : Char) : Bool :=
  '0' ≤ c && c ≤ '9'

/-- Numeric value of an ASCII digit character. -/
def digitVal (c : Char) : ℕ := c.toNat - 48

/-- Value of a digit string, most significant digit first. -/
def digitsVal (cs : List Char) : ℕ :=
  cs.foldl (fun a c => 10 * a + digitVal c) 0

/-- Strip leading and trailing whitespace, as Python int does. -/
def stripEnds (cs : List Char) : List Char :=
  ((cs.dropWhile isSpaceChar).reverse.dropWhile isSpaceChar).reverse

/-- Parse a nonempty all-digit character run. -/
def parseDigits (cs : List Char) : Option ℕ :=
  if cs.isEmpty then none
  else if cs.all isDigitChar then some (digitsVal cs)
  else none

/-- Python int(s): optional whitespace, optional sign, digits; anything else raises. -/
def parseInt (cs : List Char) : Option ℤ :=
  match stripEnds cs with
  | [] => none
  | c :: rest =>
    if c = '-' then (parseDigits rest).map (fun n => -(n : ℤ))
    else if c = '+' then (parseDigits rest).map (fun n => (n : ℤ))
    else (parseDigits (c :: rest)).map (fun n => (n : ℤ))

/-- Accumulator version of Python str.split("-"). -/
def splitDashAux (cur : List Char) : List Char → List (List Char)
  | [] => [cur.reverse]
  | c :: rest =>
    if c = '-' then cur.reverse :: splitDashAux [] rest
    else splitDashAux (c :: cur) rest

/-- Python str.split("-") on the character list of a string. -/
def splitDash (cs : List Char) : List (List Char) := splitDashAux [] cs

/-- The ASCII digit character for a value below ten. -/
def digitChar (n : ℕ) : Char :=
  match n with
  | 0 => '0' | 1 => '1' | 2 => '2' | 3 => '3' | 4 => '4'
  | 5 => '5' | 6 => '6' | 7 => '7' | 8 => '8' | _ => '9'

/-- Decimal digits of a natural number (fuel-indexed helper). -/
def natCharsAux : ℕ → ℕ → List Char
  | 0, _ => []
  | fuel + 1, n =>
    if n < 10 then [digitChar n]
    else natCharsAux fuel (n / 10) ++ [digitChar (n % 10)]

/-- Decimal digits of a natural number, most significant first. -/
def natChars (n : ℕ) : List Char := natCharsAux (n + 1) n

/-- Left-pad a character list with zeros to the given width. -/
def padZeros (w : ℕ) (cs : List Char) : List Char :=
  List.replicate (w - cs.length) '0' ++ cs

/-- Python "%0wd" formatting of an integer (sign included in the width). -/
def pyFmtInt (w : ℕ) (n : ℤ) : String :=
  if n < 0 then String.mk ('-' :: padZeros (w - 1) (natChars (-n).toNat))
  else String.mk (padZeros w (natChars n.toNat))

/-- Round a rational to the nearest integer, ties to even (Python round, np.round). -/
def roundHalfEven (q : ℚ) : ℤ :=
  let f := ⌊q⌋
  let r := q - f
  if r < 1 / 2 then f
  else if 1 / 2 < r then f + 1
  else if f % 2 = 0 then f else f + 1

/-- Python "%04.1f" formatting of a nonnegative rational: two (or more) integer
digits, a point and one rounded decimal. -/
def pyFmtSec (s : ℚ) : String :=
  let v := roundHalfEven (s * 10)
  if v < 0 then
    String.mk ('-' :: (natChars ((-v).toNat / 10) ++ ['.', digitChar ((-v).toNat % 10)]))
  else
    String.mk (padZeros 2 (natChars (v.toNat / 10)) ++ ['.', digitChar (v.toNat % 10)])

/-! ### dates.py -/

/-- Gregorian leap-year rule, dates.py line 22. -/
def is_leap (y : ℤ) : Bool :=
  decide (y % 4 = 0 ∧ (y % 100 ≠ 0 ∨ y % 400 = 0))

/-- The month-length table of dates.py lines 26 to 29 (February adjusted when leap). -/
def monthList (leap : Bool) : List ℤ :=
  [31, if leap then 29 else 28, 31, 30, 31, 30, 31, 31, 30, 31, 30, 31]

/-- Length of month m (1-based) in year y, the months[m - 1] lookup. -/
def monthLen (y m : ℤ) : ℤ :=
  (monthList (is_leap y)).getD (m - 1).toNat 0

/-- dates.py ymd2d: days since January 1 of year y; none models the assert failure. -/
def ymd2d (y m d : ℤ) : Option ℤ :=
  let months := monthList (is_leap y)
  if 1 ≤ m ∧ m ≤ 12 ∧ 1 ≤ d ∧ d ≤ months.getD (m - 1).toNat 0 then
    some ((months.take (m - 1).toNat).sum + d - 1)
  else none

/-- The while-loop of dates.py yd2md, walking the month table; the empty-list
case models the IndexError of reading past months[11]. -/
def yd2mdWalk : List ℤ → ℤ → ℤ → Option (ℤ × ℤ)
  | [], _, _ => none
  | len :: rest, m, d =>
    if d > len then yd2mdWalk rest (m + 1) (d - len)
    else if d = len then some (m + 1, 1)
    else some (m, d + 1)

/-- dates.py yd2md: inverse walk from day-of-year to (month, day); none models
the assert failure (and the unreachable IndexError). -/
def yd2md (y d : ℤ) : Option (ℤ × ℤ) :=
  let months := monthList (is_leap y)
  if 0 ≤ d ∧ (d < 365 ∨ (d = 365 ∧ months.getD 1 0 = 29)) then
    yd2mdWalk months 1 d
  else none

/-- dates.py num_leap: closed-form count of Gregorian leap years in [y1, y2);
none models the assert y2 > y1 failure. -/
def num_leap (y1 y2 : ℤ) : Option ℤ :=
  if y1 = y2 then some 0
  else if y2 < y1 then none
  else
    let N_julian := (y2 - (y1 - y1 % 4)) / 4 - (if y2 % 4 = 0 then 1 else 0)
      + (if y1 % 4 = 0 then 1 else 0)
    let N_100 := (y2 - (y1 - y1 % 100)) / 100 - (if y2 % 100 = 0 then 1 else 0)
      + (if y1 % 100 = 0 then 1 else 0)
    let N_400 := (y2 - (y1 - y1 % 400)) / 400 - (if y2 % 400 = 0 then 1 else 0)
      + (if y1 % 400 = 0 then 1 else 0)
    some (N_julian - (N_100 - N_400))

/-- The Y, M, D = np.array(s.split("-")).astype(int) step of dates.py line 97:
fails unless the string splits into exactly three int-parsable parts. -/
def parse3 (s : String) : Option (ℤ × ℤ × ℤ) :=
  match splitDash s.data with
  | [a, b, c] =>
    match parseInt a, parseInt b, parseInt c with
    | some y, some m, some d => some (y, m, d)
    | _, _, _ => none
  | _ => none

/-- dates.py calendar2jd: Julian date of 12:00:00 UTC of a "YYYY-MM-DD" string. -/
def calendar2jd (s : String) : Option ℚ :=
  match parse3 s with
  | none => none
  | some (Y, M, D) =>
    if Y > 1582 ∨ (Y = 1582 ∧ (M > 10 ∨ (M = 10 ∧ D ≥ 15))) then
      match ymd2d Y M D, ymd2d 1582 10 15, num_leap 1582 Y with
      | some N_days, some days_in_1582, some N_leap =>
        some (((2299161 : ℤ) + (Y - 1582) * 365 + N_leap + N_days - days_in_1582 : ℤ) : ℚ)
      | _, _, _ => none
    else none

/-- Timestamp layout "%04d-%02d-%02d" of dates.py line 154, date part. -/
def fmtDate (y m d : ℤ) : String :=
  pyFmtInt 4 y ++ "-" ++ pyFmtInt 2 m ++ "-" ++ pyFmtInt 2 d

/-- Timestamp layout "%04d-%02d-%02d %02d:%02d:%04.1f" of dates.py line 154. -/
def fmtTimestamp (y m d h mi : ℤ) (s : ℚ) : String :=
  fmtDate y m d ++ " " ++ pyFmtInt 2 h ++ ":" ++ pyFmtInt 2 mi ++ ":" ++ pyFmtSec s

/-- dates.py jd2calendar: calendar timestamp string of a Julian date at or after
JD 2299160.5.  The float expressions round(time_since - hms) and
jd - hms - jd_guess are integer-valued and are modelled as integers; the float
floor divisions are modelled as exact rational floors. -/
def jd2calendar (jd : ℚ) : Option String :=
  if jd < 2299160.5 then none
  else
    let time_since := jd - 2299160.5
    let hms := time_since - (⌊time_since⌋ : ℚ)
    let days_since : ℤ := ⌊time_since⌋
    match ymd2d 1582 10 15 with
    | none => none
    | some days_in_1582 =>
      let N_year : ℤ := ⌊((days_since + days_in_1582 : ℤ) : ℚ) / (365 + 1 / 4 - 3 / 400)⌋
      let year_guess := 1582 + N_year
      match num_leap 1582 year_guess with
      | none => none
      | some N_leap =>
        let diff : ℤ := days_since + days_in_1582 - (N_year * 365 + N_leap)
        let yl : ℤ := 365 + (if is_leap year_guess then 1 else 0)
        let year := if diff ≥ yl then year_guess + 1 else year_guess
        let diff2 := if diff ≥ yl then diff - yl else diff
        match yd2md year diff2 with
        | none => none
        | some (month, day) =>
          let UT := hms * 86400
          let hour : ℤ := ⌊UT / 3600⌋
          let minute : ℤ := ⌊(UT - 3600 * (hour : ℚ)) / 60⌋
          let second : ℚ := UT - 60 * (⌊UT / 60⌋ : ℚ)
          some (fmtTimestamp year month day hour minute second)


/-! ### solar_motion.py

The module-level constants are evaluated in source order when the module is
imported; a raising evaluation is modelled by none.  Every real-valued
geometric computation (sun_vector, rot_axis, zenith and the trigonometric
body of sun_location) is abstracted as the oracle parameter geo; the
discrete skeleton around it (which constants must evaluate first, what
shape the returned value has) is taken from the source. -/

/-- solar_motion.py line 37: the reference equinox constant, computed by
calling calendar2jd on a timestamp string. -/
def EQUINOX_DATE : Option ℚ := calendar2jd "2020-03-20 03:49:00.0"

/-- solar_motion.py line 41: the reference solar-noon constant. -/
def EQ_SOLAR_NOON : Option ℚ := calendar2jd "2020-03-20 12:07:00.0"

/-- solar_motion.py line 43: longitude of the subsolar point at the equinox,
derived from the two constants above (SYNODIC_DAY = 1). -/
def LON_SUBSOLAR : Option ℚ := do
  let noon ← EQ_SOLAR_NOON
  let equinox ← EQUINOX_DATE
  pure ((noon - equinox) / 1 * 360)

/-- solar_motion.py sun_location (lines 193 to 221).  Its geometric body is the
oracle geo; before that body can run, rot_axis (line 209, default argument
march_equinox = EQUINOX_DATE) and zenith (line 210, reading EQUINOX_DATE at
line 174 and LON_SUBSOLAR at line 180) must evaluate the module constants, so
their failure is the failure of every sun_location call. -/
def sun_location (geo : ℚ → ℚ → ℚ → ℚ × ℚ) (jd lat lon : ℚ) : Option (ℚ × ℚ) := do
  let _equinox ← EQUINOX_DATE
  let _lon_subsolar ← LON_SUBSOLAR
  pure (geo jd lat lon)

/-- The value returned by sun_location at line 221 of solar_motion.py, as the
Python tuple it is: a sequence of exactly two floats (altitude, azimuth). -/
def sun_location_tuple (altitude azimuth : ℚ) : List ℚ := [altitude, azimuth]

/-- Python unpacking a, b, c = t of a float tuple: raises ValueError unless
the tuple has exactly three components. -/
def unpack3 (t : List ℚ) : Option (ℚ × ℚ × ℚ) :=
  match t with
  | [a, b, c] => some (a, b, c)
  | _ => none

/-- The per-sample step of the find_twilight loop, search.py lines 49 and 50:
unpack sun_location's return into (alt_, azi, angular) and record
alt_ + angular as the upper-limb altitude of the sample. -/
def find_twilight_sample (altitude azimuth : ℚ) : Option ℚ :=
  (unpack3 (sun_location_tuple altitude azimuth)).map (fun v => v.1 + v.2.2)

/-! ### search.py -/

/-- Modelled from the spec: resolveTimeZone (spec section 6), the out-of-scope
time-zone collaborator called as time_zone at search.py line 93 and absent
from the repository sources — a longitude-based whole-hour UTC offset with a
display label. -/
def time_zone (lon : ℚ) : ℤ × String :=
  let tz := roundHalfEven (lon / 15)
  (tz, "UTC" ++ (if tz < 0 then "-" ++ String.mk (natChars (-tz).toNat)
                 else "+" ++ String.mk (natChars tz.toNat)))

/-- np.linspace(a, b, n): n evenly spaced points from a to b inclusive. -/
def linspace (a b : ℚ) (n : ℕ) : List ℚ :=
  match n with
  | 0 => []
  | 1 => [a]
  | _ => (List.range n).map (fun i => a + i * (b - a) / ((n : ℚ) - 1))

/-- The sorted([x, y]) pair of search.py line 43. -/
def sorted2 (x y : ℚ) : ℚ × ℚ := if x ≤ y then (x, y) else (y, x)

/-- search.py find_twilight (lines 7 to 60).  The real-valued parts are
oracles: geo is the geometric body of sun_location, and solve stands for the
interp1d plus root_scalar pipeline of lines 52 to 60 operating on the sampled
(time, upper-limb altitude, azimuth) triples, returning none when root_scalar
finds no sign change (the no-crossing ValueError).  Everything else follows
the source: line 34 rounds the longitude to a whole-hour offset, line 36
builds the local-noon timestamp string and hands it to calendar2jd, lines 38
to 43 build the 12-hour sample window, lines 48 to 50 sample sun_location and
unpack each returned tuple into three components. -/
def find_twilight (geo : ℚ → ℚ → ℚ → ℚ × ℚ)
    (solve : List (ℚ × ℚ × ℚ) → Option (ℚ × ℚ × ℚ))
    (calendar_date : String) (lat lon : ℚ) (rise : Bool) (N : ℕ) :
    Option (ℚ × ℚ × ℚ) := do
  let tz : ℤ := roundHalfEven (lon / (360 / 24))
  let H : ℤ := 12 - tz
  let jd_local_noon ← calendar2jd (calendar_date ++ " " ++ pyFmtInt 2 H ++ ":00:00.0")
  let jd_local_midnight := if rise then jd_local_noon - 0.5 else jd_local_noon + 0.5
  let lohi := sorted2 jd_local_midnight jd_local_noon
  let time := linspace lohi.1 lohi.2 N
  let samples ← time.mapM (fun t => do
    let pr ← sun_location geo t lat lon
    let v ← unpack3 (sun_location_tuple pr.1 pr.2)
    pure (t, v.1 + v.2.2, v.2.1))
  solve samples

/-- The day-counter advance of search.py lines 102 to 105: increment the
day-of-year and, past the year end test D0 > 364 + is_leap, reduce it modulo
364 + is_leap and step the year. -/
def day_advance (Y0 D0 : ℤ) : ℤ × ℤ :=
  let D := D0 + 1
  let yl := 364 + (if is_leap Y0 then (1 : ℤ) else 0)
  if D > yl then (Y0 + 1, D % yl) else (Y0, D)

/-- The while loop of search.py lines 95 to 105, with explicit fuel (the
source loop is unbounded; find_obs_window supplies fuel exceeding the number
of iterations any terminating run can take).  Each iteration converts the
day counter back to a month/day pair, runs find_twilight, appends the event
when the azimuth is within tolerance of the heading, and advances the day
counter; any exception from the body propagates, since the source has no
handler around it. -/
def obsLoop (geo : ℚ → ℚ → ℚ → ℚ × ℚ)
    (solve : List (ℚ × ℚ × ℚ) → Option (ℚ × ℚ × ℚ))
    (heading lat lon : ℚ) (rise : Bool) (tol : ℚ) (N : ℕ)
    (tz : ℤ) (tz_label : String) :
    ℕ → ℤ → ℤ → ℤ → ℤ → List (String × ℚ × ℚ) → Option (List (String × ℚ × ℚ))
  | 0, _, _, _, _, _ => none
  | fuel + 1, Y0, D0, Y1, D1, window =>
    if Y0 < Y1 ∨ (Y0 = Y1 ∧ D0 ≤ D1) then do
      let md ← yd2md Y0 D0
      let calendar_date := fmtDate Y0 md.1 md.2
      let ev ← find_twilight geo solve calendar_date lat lon rise N
      let window' ←
        if |heading - ev.2.2| < tol then do
          let s ← jd2calendar (ev.1 + (tz : ℚ) / 24)
          pure ((s ++ " " ++ tz_label, ev.2.1, ev.2.2) :: window)
        else pure window
      let nxt := day_advance Y0 D0
      obsLoop geo solve heading lat lon rise tol N tz tz_label fuel nxt.1 nxt.2 Y1 D1 window'
    else some window.reverse

/-- search.py find_obs_window (lines 62 to 107): parse the range endpoints
(lines 87 to 90), obtain the time-zone offset and label (line 93, the
spec-modelled collaborator), and run the scan loop. -/
def find_obs_window (geo : ℚ → ℚ → ℚ → ℚ × ℚ)
    (solve : List (ℚ × ℚ × ℚ) → Option (ℚ × ℚ × ℚ))
    (heading : ℚ) (begin_date end_date : String) (lat lon : ℚ)
    (rise : Bool) (tol : ℚ) (N : ℕ) : Option (List (String × ℚ × ℚ)) := do
  let b ← parse3 begin_date
  let D0 ← ymd2d b.1 b.2.1 b.2.2
  let e ← parse3 end_date
  let D1 ← ymd2d e.1 e.2.1 e.2.2
  let tzp := time_zone lon
  obsLoop geo solve heading lat lon rise tol N tzp.1 tzp.2
    (((e.1 - b.1).toNat + 2) * 367) b.1 D0 e.1 D1 []

/-- The sequence of (year, day-of-year) states visited by the loop of
search.py lines 95 to 105, i.e. the dates the scan would hand to
find_twilight, recorded independently of the loop body. -/
def visitedDays : ℕ → ℤ → ℤ → ℤ → ℤ → List (ℤ × ℤ)
  | 0, _, _, _, _ => []
  | fuel + 1, Y0, D0, Y1, D1 =>
    if Y0 < Y1 ∨ (Y0 = Y1 ∧ D0 ≤ D1) then
      (Y0, D0) :: (visitedDays fuel (day_advance Y0 D0).1 (day_advance Y0 D0).2 Y1 D1)
    else []


/-! ### Leap-year counting: the closed form of num_leap equals direct iteration -/

/-- Number of years y in [y1, y1 + n) satisfying the predicate p, by direct
iteration. -/
def countIf (p : ℤ → Bool) (y1 : ℤ) (n : ℕ) : ℕ :=
  ((List.range n).filter (fun k : ℕ => p (y1 + (k : ℤ)))).length

/-- Number of Gregorian leap years in [y1, y2) by direct iteration of the
leap rule. -/
def leapCountIter (y1 y2 : ℤ) : ℤ :=
  (countIf (fun y => is_leap y) y1 (y2 - y1).toNat : ℤ)

/-! ### Month walk: yd2md inverts ymd2d (finite checks over both leap shapes) -/

/-- Exhaustive check, for one leap shape, that every valid (month, day) pair
survives the round trip through the day-of-year encoding: the encoded day
passes the yd2md precondition and the month walk returns the original pair. -/
def c8invCheck (ℓ : Bool) : Bool :=
  (List.range 12).all fun mi =>
    (List.range 31).all fun di =>
      let m : ℤ := (mi : ℤ) + 1
      let d : ℤ := (di : ℤ) + 1
      !(decide (d ≤ (monthList ℓ).getD mi 0)) ||
        (let n := ((monthList ℓ).take mi).sum + d - 1
         decide (0 ≤ n ∧ (n < 365 ∨ (n = 365 ∧ (monthList ℓ).getD 1 0 = 29))) &&
           decide (yd2mdWalk (monthList ℓ) 1 n = some (m, d)))

/-- Exhaustive check, for one leap shape, that the month walk succeeds on
every day-of-year below the year length. -/
def c8someCheck (ℓ : Bool) : Bool :=
  (List.range 366).all fun di =>
    !(decide ((di : ℤ) < 365 + (if ℓ then 1 else 0))) ||
      (yd2mdWalk (monthList ℓ) 1 (di : ℤ)).isSome


/-! ### Sanity evaluations against the self-test asserts of the sources -/

example : ymd2d 2020 1 1 = some 0 := by decide
example : ymd2d 2020 12 31 = some 365 := by decide
example : ymd2d 2021 12 31 = some 364 := by decide
example : ymd2d 2000 3 1 = some 60 := by decide
example : ymd2d 2100 3 1 = some 59 := by decide
example : yd2md 2020 60 = some (3, 1) := by decide
example : yd2md 2020 365 = some (12, 31) := by decide
example : yd2md 2100 59 = some (3, 1) := by decide
example : num_leap 2020 2042 = some 6 := by decide
example : num_leap 1896 2005 = some 27 := by decide
example : calendar2jd "1582-10-15" = some 2299161 := by decide
example : calendar2jd "2020-01-01" = some 2458850 := by decide
example : calendar2jd "2024-02-29" = some 2460370 := by decide
unseal Rat.add Rat.sub Rat.mul Rat.inv Rat.ofScientific in
example : jd2calendar 2299161 = some "1582-10-15 12:00:00.0" := by decide

unseal Rat.add Rat.sub Rat.mul Rat.inv Rat.ofScientific in
example : jd2calendar 2458850 = some "2020-01-01 12:00:00.0" := by decide

unseal Rat.add Rat.sub Rat.mul Rat.inv Rat.ofScientific in
example : jd2calendar 2460370.5 = some "2024-03-01 00:00:00.0" := by decide

unseal Rat.add Rat.sub Rat.mul Rat.inv Rat.ofScientific in
example : jd2calendar 2460371.037896 = some "2024-03-01 12:54:34.2" := by decide

unseal Rat.add Rat.sub Rat.mul Rat.inv Rat.ofScientific in
example : jd2calendar 2632242.123173 = some "2494-09-24 14:57:22.1" := by decide

unseal Rat.add Rat.sub Rat.mul Rat.inv Rat.ofScientific in
example : EQUINOX_DATE = none := by decide

unseal Rat.add Rat.sub Rat.mul Rat.inv Rat.ofScientific in
example : find_obs_window (fun _ _ _ => (0, 0)) (fun _ => none) 289 "2025-01-01"
    "2025-01-03" 32.8595 (-117.2124) false 0.5 30 = none := by decide

example : visitedDays 800 2024 364 2025 1 = [(2024, 364), (2024, 365), (2025, 1)] := by decide

/-! ### Helper theorems -/

theorem ediv_succ (m y : ℤ) (hm : 0 < m) :
    y / m = (y - 1) / m + (if y % m = 0 then 1 else 0) := by
  have h0 : m * (y / m) + y % m = y := Int.ediv_add_emod y m
  by_cases h : y % m = 0
  · have hmul : m * (y / m) = y := by linarith [h0, h]
    have hy : y - 1 = (m - 1) + (y / m - 1) * m := by linear_combination -hmul
    rw [hy, Int.add_mul_ediv_right _ _ hm.ne']
    have hz : (m - 1) / m = 0 := Int.ediv_eq_zero_of_lt (by omega) (by omega)
    rw [if_pos h, hz]
    linarith
  · have hr0 : 0 ≤ y % m := Int.emod_nonneg y hm.ne'
    have hrm : y % m < m := Int.emod_lt_of_pos y hm
    have hy : y - 1 = (y % m - 1) + (y / m) * m := by linear_combination -h0
    rw [hy, Int.add_mul_ediv_right _ _ hm.ne']
    have hz : (y % m - 1) / m = 0 := Int.ediv_eq_zero_of_lt (by omega) (by omega)
    rw [if_neg h, hz]
    linarith

theorem countIf_succ (p : ℤ → Bool) (y1 : ℤ) (n : ℕ) :
    countIf p y1 (n + 1) = countIf p y1 n + (if p (y1 + (n : ℤ)) then 1 else 0) := by
  unfold countIf
  rw [List.range_succ, List.filter_append, List.length_append]
  simp [List.filter_singleton]
  cases h : p (y1 + (n : ℤ)) <;> simp [h]

theorem is_leap_iff (y : ℤ) :
    is_leap y = true ↔ (y % 4 = 0 ∧ (y % 100 ≠ 0 ∨ y % 400 = 0)) := by
  simp [is_leap]

theorem leap_indicator (y : ℤ) :
    ((if is_leap y then 1 else 0) : ℤ) =
      (if y % 4 = 0 then 1 else 0) - (if y % 100 = 0 then 1 else 0)
        + (if y % 400 = 0 then 1 else 0) := by
  have h400 : y % 400 = 0 → y % 100 = 0 := by omega
  have h100 : y % 100 = 0 → y % 4 = 0 := by omega
  by_cases h4 : y % 4 = 0 <;> by_cases hc : y % 100 = 0 <;> by_cases hq : y % 400 = 0 <;>
    simp [is_leap, h4, hc, hq] <;> omega

/-- Direct-iteration count of Gregorian leap years expressed through floor
divisions, by a single induction on the interval length. -/
theorem countIf_leap_eq (y1 : ℤ) (n : ℕ) :
    (countIf (fun y => is_leap y) y1 n : ℤ) =
      ((y1 + n - 1) / 4 - (y1 - 1) / 4) - ((y1 + n - 1) / 100 - (y1 - 1) / 100)
        + ((y1 + n - 1) / 400 - (y1 - 1) / 400) := by
  induction n with
  | zero => simp [countIf]
  | succ k ih =>
    rw [countIf_succ]
    push_cast
    rw [ih, leap_indicator (y1 + (k : ℤ))]
    split_ifs <;> omega

theorem sub_emod_self_ediv (m y : ℤ) (hm : 0 < m) (y2 : ℤ) :
    (y2 - (y - y % m)) / m = y2 / m - y / m := by
  have h0 : m * (y / m) + y % m = y := Int.ediv_add_emod y m
  have hy : y2 - (y - y % m) = y2 + (-(y / m)) * m := by linear_combination h0
  rw [hy, Int.add_mul_ediv_right _ _ hm.ne']
  linarith

/-- One divisibility class of the num_leap closed form, rewritten into the
difference-of-floors shape used by the iteration count. -/
theorem closed_class_eq (m y1 y2 : ℤ) (hm : 0 < m) :
    (y2 - (y1 - y1 % m)) / m - (if y2 % m = 0 then 1 else 0)
        + (if y1 % m = 0 then 1 else 0) = (y2 - 1) / m - (y1 - 1) / m := by
  rw [sub_emod_self_ediv m y1 hm y2]
  have s := ediv_succ m y2 hm
  have t := ediv_succ m y1 hm
  split_ifs at s t ⊢ <;> linarith


set_option maxRecDepth 20000 in
theorem c8invCheck_true (ℓ : Bool) : c8invCheck ℓ = true := by
  cases ℓ <;> decide

set_option maxRecDepth 20000 in
theorem c8someCheck_true (ℓ : Bool) : c8someCheck ℓ = true := by
  cases ℓ <;> decide

theorem monthList_getD_le (ℓ : Bool) (i : ℕ) : (monthList ℓ).getD i 0 ≤ 31 := by
  cases ℓ <;>
    rcases i with _|_|_|_|_|_|_|_|_|_|_|_|i <;>
      simp [monthList, List.getD]

/-- Round-trip core: for any leap shape and valid month/day bounds, the
day-of-year encoding passes the yd2md precondition and walks back to the
original pair. -/
theorem walk_inverse (ℓ : Bool) (m d : ℤ)
    (h1 : 1 ≤ m) (h2 : m ≤ 12) (h3 : 1 ≤ d)
    (h4 : d ≤ (monthList ℓ).getD (m - 1).toNat 0) :
    (0 ≤ ((monthList ℓ).take (m - 1).toNat).sum + d - 1 ∧
      (((monthList ℓ).take (m - 1).toNat).sum + d - 1 < 365 ∨
        (((monthList ℓ).take (m - 1).toNat).sum + d - 1 = 365 ∧
          (monthList ℓ).getD 1 0 = 29))) ∧
      yd2mdWalk (monthList ℓ) 1 (((monthList ℓ).take (m - 1).toNat).sum + d - 1)
        = some (m, d) := by
  have hmi : (m - 1).toNat < 12 := by omega
  have hdi : (d - 1).toNat < 31 := by
    have := monthList_getD_le ℓ (m - 1).toNat
    omega
  have hall := c8invCheck_true ℓ
  unfold c8invCheck at hall
  rw [List.all_eq_true] at hall
  have h1m := hall ((m - 1).toNat) (List.mem_range.mpr hmi)
  rw [List.all_eq_true] at h1m
  have h2m := h1m ((d - 1).toNat) (List.mem_range.mpr hdi)
  have hm : ((m - 1).toNat : ℤ) + 1 = m := by omega
  have hd : ((d - 1).toNat : ℤ) + 1 = d := by omega
  simp only [hm, hd, Bool.or_eq_true, Bool.not_eq_true', decide_eq_false_iff_not,
    Bool.and_eq_true, decide_eq_true_eq] at h2m
  rcases h2m with hfail | hok
  · exact absurd h4 hfail
  · exact hok

/-- Success core: for any leap shape, the month walk succeeds on every
day-of-year in range. -/
theorem walk_some (ℓ : Bool) (d : ℤ) (h0 : 0 ≤ d)
    (h1 : d < 365 + (if ℓ then 1 else 0)) :
    (yd2mdWalk (monthList ℓ) 1 d).isSome := by
  have hdi : d.toNat < 366 := by split_ifs at h1 <;> omega
  have hall := c8someCheck_true ℓ
  unfold c8someCheck at hall
  rw [List.all_eq_true] at hall
  have h2m := hall d.toNat (List.mem_range.mpr hdi)
  have hd : (d.toNat : ℤ) = d := Int.toNat_of_nonneg h0
  rw [hd] at h2m
  simp only [Bool.or_eq_true, Bool.not_eq_true', decide_eq_false_iff_not] at h2m
  rcases h2m with hfail | hok
  · exact absurd h1 hfail
  · exact hok

/-- ymd2d succeeds and yd2md inverts it, for every year and every valid
month/day pair of that year. -/
theorem ymd2d_yd2md_inverse (y m d : ℤ)
    (h1 : 1 ≤ m) (h2 : m ≤ 12) (h3 : 1 ≤ d) (h4 : d ≤ monthLen y m) :
    ∃ n, ymd2d y m d = some n ∧ yd2md y n = some (m, d) := by
  have hw := walk_inverse (is_leap y) m d h1 h2 h3 h4
  refine ⟨((monthList (is_leap y)).take (m - 1).toNat).sum + d - 1, ?_, ?_⟩
  · unfold ymd2d
    rw [if_pos ⟨h1, h2, h3, h4⟩]
  · unfold yd2md
    rw [if_pos hw.1]
    exact hw.2

/-- yd2md fails exactly on day counts at or beyond the year length (for
nonnegative day counts). -/
theorem yd2md_none_iff (y d : ℤ) (h0 : 0 ≤ d) :
    yd2md y d = none ↔ 365 + (if is_leap y then 1 else 0) ≤ d := by
  constructor
  · intro hnone
    by_contra hlt
    push_neg at hlt
    have hs := walk_some (is_leap y) d h0 hlt
    simp only [yd2md] at hnone
    rw [if_pos] at hnone
    · rw [hnone] at hs
      simp at hs
    · refine ⟨h0, ?_⟩
      rcases lt_or_ge d 365 with hc | hc
      · exact Or.inl hc
      · have hl : is_leap y = true := by
          by_contra hf
          rw [Bool.not_eq_true] at hf
          rw [hf] at hlt
          simp at hlt
          omega
        right
        refine ⟨?_, ?_⟩
        · rw [hl] at hlt
          simp at hlt
          omega
        · rw [hl]
          decide
  · intro hge
    have hneg : ¬(0 ≤ d ∧ (d < 365 ∨ (d = 365 ∧
        (monthList (is_leap y)).getD 1 0 = 29))) := by
      rintro ⟨-, hcase | ⟨h365, h29⟩⟩
      · have hind : (0 : ℤ) ≤ if is_leap y then 1 else 0 := by split_ifs <;> norm_num
        omega
      · have hl : is_leap y = true := by
          by_contra hf
          rw [Bool.not_eq_true] at hf
          rw [hf] at h29
          exact absurd h29 (by decide)
        rw [hl] at hge
        simp at hge
        omega
    simp only [yd2md]
    rw [if_neg hneg]

/-- The closed form computed by num_leap equals direct iteration of the leap
rule over the half-open interval, for every pair of years y1 ≤ y2. -/
theorem num_leap_eq_iter (y1 y2 : ℤ) (h : y1 ≤ y2) :
    num_leap y1 y2 = some (leapCountIter y1 y2) := by
  rcases eq_or_lt_of_le h with heq | hlt
  · subst heq
    simp [num_leap, leapCountIter, countIf]
  · have hne : ¬ y1 = y2 := by omega
    have hnlt : ¬ y2 < y1 := by omega
    unfold num_leap
    rw [if_neg hne, if_neg (by omega)]
    have hn : ((y2 - y1).toNat : ℤ) = y2 - y1 := Int.toNat_of_nonneg (by omega)
    have hcount := countIf_leap_eq y1 (y2 - y1).toNat
    rw [hn] at hcount
    have harg : y1 + (y2 - y1) - 1 = y2 - 1 := by ring
    rw [harg] at hcount
    unfold leapCountIter
    rw [hcount]
    rw [closed_class_eq 4 y1 y2 (by norm_num), closed_class_eq 100 y1 y2 (by norm_num),
      closed_class_eq 400 y1 y2 (by norm_num)]
    exact congrArg some (by linarith)

/-- yd2md succeeds on every day-of-year strictly below the year length. -/
theorem yd2md_some_of_lt (y d : ℤ) (h0 : 0 ≤ d)
    (h1 : d < 365 + (if is_leap y then 1 else 0)) :
    ∃ md, yd2md y d = some md := by
  have hiff := yd2md_none_iff y d h0
  have hne : yd2md y d ≠ none := by
    intro hnone
    have := hiff.mp hnone
    omega
  rcases hopt : yd2md y d with _ | md
  · exact absurd hopt hne
  · exact ⟨md, rfl⟩

/-! ### Parsing lemmas: calendar2jd rejects any string containing a colon -/

theorem mem_splitDashAux (c : Char) (hc : c ≠ '-') :
    ∀ (cs cur : List Char), (c ∈ cur ∨ c ∈ cs) →
      ∃ p ∈ splitDashAux cur cs, c ∈ p := by
  intro cs
  induction cs with
  | nil =>
    intro cur hmem
    rcases hmem with h | h
    · exact ⟨cur.reverse, by simp [splitDashAux], List.mem_reverse.mpr h⟩
    · simp at h
  | cons x rest ih =>
    intro cur hmem
    by_cases hx : x = '-'
    · subst hx
      simp only [splitDashAux, if_pos rfl]
      rcases hmem with h | h
      · exact ⟨cur.reverse, by simp, List.mem_reverse.mpr h⟩
      · rcases List.mem_cons.mp h with h | h
        · exact absurd h hc
        · obtain ⟨p, hp, hcp⟩ := ih [] (Or.inr h)
          exact ⟨p, List.mem_cons_of_mem _ hp, hcp⟩
    · simp only [splitDashAux, if_neg hx]
      rcases hmem with h | h
      · exact ih (x :: cur) (Or.inl (List.mem_cons_of_mem _ h))
      · rcases List.mem_cons.mp h with h | h
        · exact ih (x :: cur) (Or.inl (h ▸ List.mem_cons_self x cur))
        · exact ih (x :: cur) (Or.inr h)

theorem mem_splitDash (c : Char) (hc : c ≠ '-') (cs : List Char) (h : c ∈ cs) :
    ∃ p ∈ splitDash cs, c ∈ p :=
  mem_splitDashAux c hc cs [] (Or.inr h)

theorem mem_dropWhile_of_not (p : Char → Bool) (c : Char) (hp : p c = false) :
    ∀ l : List Char, c ∈ l → c ∈ l.dropWhile p := by
  intro l
  induction l with
  | nil => intro h; simp at h
  | cons x xs ih =>
    intro h
    by_cases hx : p x
    · rw [List.dropWhile_cons_of_pos hx]
      rcases List.mem_cons.mp h with h | h
      · subst h; rw [hx] at hp; simp at hp
      · exact ih h
    · rw [List.dropWhile_cons_of_neg hx]
      exact h

theorem mem_stripEnds (c : Char) (hsp : isSpaceChar c = false) (cs : List Char)
    (h : c ∈ cs) : c ∈ stripEnds cs := by
  unfold stripEnds
  apply List.mem_reverse.mpr
  apply mem_dropWhile_of_not _ _ hsp
  apply List.mem_reverse.mpr
  exact mem_dropWhile_of_not _ _ hsp _ h

theorem parseDigits_none_of_mem (ds : List Char) (c : Char) (hmem : c ∈ ds)
    (hnd : isDigitChar c = false) : parseDigits ds = none := by
  unfold parseDigits
  have hne : ds.isEmpty = false := by
    cases ds
    · simp at hmem
    · rfl
  rw [hne]
  have hall : ds.all isDigitChar = false := by
    by_contra hall
    rw [Bool.not_eq_false, List.all_eq_true] at hall
    rw [hall c hmem] at hnd
    simp at hnd
  simp [hall]

theorem parseInt_colon (cs : List Char) (h : ':' ∈ cs) : parseInt cs = none := by
  have hsp : isSpaceChar ':' = false := by decide
  have hmem := mem_stripEnds ':' hsp cs h
  unfold parseInt
  rcases hstr : stripEnds cs with _ | ⟨c, rest⟩
  · rfl
  · rw [hstr] at hmem
    dsimp only
    by_cases hc : c = '-'
    · rw [if_pos hc]
      have hrest : ':' ∈ rest := by
        rcases List.mem_cons.mp hmem with h1 | h1
        · rw [hc] at h1; simp at h1
        · exact h1
      rw [parseDigits_none_of_mem rest ':' hrest (by decide)]
      rfl
    · rw [if_neg hc]
      by_cases hc2 : c = '+'
      · rw [if_pos hc2]
        have hrest : ':' ∈ rest := by
          rcases List.mem_cons.mp hmem with h1 | h1
          · rw [hc2] at h1; simp at h1
          · exact h1
        rw [parseDigits_none_of_mem rest ':' hrest (by decide)]
        rfl
      · rw [if_neg hc2]
        rw [parseDigits_none_of_mem (c :: rest) ':' hmem (by decide)]
        rfl

/-- Any string containing a colon anywhere is rejected by calendar2jd: the
colon survives the dash split and the int conversion of its part raises. -/
theorem calendar2jd_colon (s : String) (h : ':' ∈ s.data) :
    calendar2jd s = none := by
  obtain ⟨p, hp, hcp⟩ := mem_splitDash ':' (by decide) s.data h
  unfold calendar2jd parse3
  generalize hsp : splitDash s.data = parts
  rw [hsp] at hp
  rcases parts with _ | ⟨a, _ | ⟨b, _ | ⟨c, _ | ⟨d, tl⟩⟩⟩⟩
  · rfl
  · rfl
  · rfl
  · dsimp only
    rcases List.mem_cons.mp hp with h1 | h1
    · subst h1
      rw [parseInt_colon p hcp]
    · rcases List.mem_cons.mp h1 with h2 | h2
      · subst h2
        rw [parseInt_colon p hcp]
        rcases parseInt a with _ | va <;> rfl
      · rcases List.mem_cons.mp h2 with h3 | h3
        · subst h3
          rw [parseInt_colon p hcp]
          rcases parseInt a with _ | va <;> rcases parseInt b with _ | vb <;> rfl
        · simp at h3
  · rfl

/-- The local-noon timestamp string of find_twilight always contains a colon,
so its calendar2jd call always raises. -/
theorem calendar2jd_timestamp_none (cd : String) (t : String) (h : ':' ∈ t.data) :
    calendar2jd (cd ++ t) = none := by
  apply calendar2jd_colon
  rw [String.data_append]
  exact List.mem_append.mpr (Or.inr h)

/-! ### Formatted numbers parse back to their values -/

theorem digitChar_spec (n : ℕ) (h : n < 10) :
    digitVal (digitChar n) = n ∧ isDigitChar (digitChar n) = true ∧
      isSpaceChar (digitChar n) = false ∧ digitChar n ≠ '-' := by
  interval_cases n <;> exact ⟨rfl, rfl, rfl, by decide⟩

theorem digitsVal_append_one (xs : List Char) (c : Char) :
    digitsVal (xs ++ [c]) = 10 * digitsVal xs + digitVal c := by
  unfold digitsVal
  rw [List.foldl_append]
  rfl

theorem natCharsAux_spec (fuel : ℕ) : ∀ n : ℕ, n < fuel →
    natCharsAux fuel n ≠ [] ∧ (natCharsAux fuel n).all isDigitChar = true ∧
      (∀ c ∈ natCharsAux fuel n, isSpaceChar c = false) ∧
      digitsVal (natCharsAux fuel n) = n := by
  induction fuel with
  | zero => intro n h; omega
  | succ f ih =>
    intro n h
    unfold natCharsAux
    by_cases h10 : n < 10
    · rw [if_pos h10]
      obtain ⟨hv, hd, hs, -⟩ := digitChar_spec n h10
      refine ⟨by simp, by simp [hd], ?_, ?_⟩
      · intro c hc
        rw [List.mem_singleton] at hc
        rw [hc]
        exact hs
      · unfold digitsVal
        simp [hv]
    · rw [if_neg h10]
      have hfn : n / 10 < f := by omega
      obtain ⟨hne, hall, hnsp, hval⟩ := ih (n / 10) hfn
      obtain ⟨hv, hd, hs, -⟩ := digitChar_spec (n % 10) (by omega)
      refine ⟨by simp, ?_, ?_, ?_⟩
      · rw [List.all_append]
        simp [hall, hd]
      · intro c hc
        rcases List.mem_append.mp hc with hc | hc
        · exact hnsp c hc
        · rw [List.mem_singleton] at hc
          rw [hc]
          exact hs
      · rw [digitsVal_append_one, hval, hv]
        omega

theorem natChars_spec (n : ℕ) :
    natChars n ≠ [] ∧ (natChars n).all isDigitChar = true ∧
      (∀ c ∈ natChars n, isSpaceChar c = false) ∧ digitsVal (natChars n) = n :=
  natCharsAux_spec (n + 1) n (by omega)

theorem padZeros_spec (w : ℕ) (cs : List Char) (hne : cs ≠ [])
    (hall : cs.all isDigitChar = true) (hns : ∀ c ∈ cs, isSpaceChar c = false)
    (hval : digitsVal cs = n) :
    padZeros w cs ≠ [] ∧ (padZeros w cs).all isDigitChar = true ∧
      (∀ c ∈ padZeros w cs, isSpaceChar c = false) ∧ digitsVal (padZeros w cs) = n := by
  unfold padZeros
  have hzeros : ∀ c ∈ List.replicate (w - cs.length) '0', c = '0' := by
    intro c hc
    exact (List.mem_replicate.mp hc).2
  refine ⟨by simp [hne], ?_, ?_, ?_⟩
  · rw [List.all_append, Bool.and_eq_true]
    refine ⟨?_, hall⟩
    rw [List.all_eq_true]
    intro c hc
    rw [hzeros c hc]
    rfl
  · intro c hc
    rcases List.mem_append.mp hc with hc | hc
    · rw [hzeros c hc]
      rfl
    · exact hns c hc
  · rw [← hval]
    unfold digitsVal
    rw [List.foldl_append]
    congr 1
    have : ∀ k, List.foldl (fun a c => 10 * a + digitVal c) 0 (List.replicate k '0') = 0 := by
      intro k
      induction k with
      | zero => rfl
      | succ j ihj =>
        rw [List.replicate_succ, List.foldl_cons]
        simpa using ihj
    exact this _

theorem stripEnds_eq_self (cs : List Char) (h : ∀ c ∈ cs, isSpaceChar c = false) :
    stripEnds cs = cs := by
  unfold stripEnds
  have h1 : cs.dropWhile isSpaceChar = cs := by
    cases cs with
    | nil => rfl
    | cons x xs =>
      apply List.dropWhile_cons_of_neg
      rw [h x (List.mem_cons_self x xs)]
      simp
  rw [h1]
  have h2 : cs.reverse.dropWhile isSpaceChar = cs.reverse := by
    cases hrev : cs.reverse with
    | nil => rfl
    | cons x xs =>
      apply List.dropWhile_cons_of_neg
      have hx : x ∈ cs := by
        rw [← List.mem_reverse, hrev]
        exact List.mem_cons_self x xs
      rw [h x hx]
      simp
  rw [h2, List.reverse_reverse]

theorem parseDigits_digits (cs : List Char) (hne : cs ≠ [])
    (hall : cs.all isDigitChar = true) : parseDigits cs = some (digitsVal cs) := by
  unfold parseDigits
  have hemp : cs.isEmpty = false := by
    cases cs
    · exact absurd rfl hne
    · rfl
  rw [hemp]
  rw [if_neg (by simp), if_pos hall]

theorem parseInt_digits (cs : List Char) (hne : cs ≠ [])
    (hall : cs.all isDigitChar = true) (hns : ∀ c ∈ cs, isSpaceChar c = false) :
    parseInt cs = some ((digitsVal cs : ℕ) : ℤ) := by
  unfold parseInt
  rw [stripEnds_eq_self cs hns]
  rcases cs with _ | ⟨c, rest⟩
  · exact absurd rfl hne
  · dsimp only
    have hc : isDigitChar c = true := (List.all_eq_true.mp hall) c (List.mem_cons_self c rest)
    have hm : ¬ c = '-' := by
      intro he
      rw [he] at hc
      exact absurd hc (by decide)
    have hp : ¬ c = '+' := by
      intro he
      rw [he] at hc
      exact absurd hc (by decide)
    rw [if_neg hm, if_neg hp, parseDigits_digits (c :: rest) (by simp) hall]
    rfl

/-- A zero-padded nonnegative integer parses back to itself. -/
theorem parseInt_pyFmtInt (w : ℕ) (n : ℤ) (h : 0 ≤ n) :
    parseInt (pyFmtInt w n).data = some n := by
  unfold pyFmtInt
  rw [if_neg (not_lt.mpr h)]
  obtain ⟨hne, hall, hns, hval⟩ := natChars_spec n.toNat
  obtain ⟨hne2, hall2, hns2, hval2⟩ := padZeros_spec w (natChars n.toNat) hne hall hns hval
  rw [show (String.mk (padZeros w (natChars n.toNat))).data = padZeros w (natChars n.toNat) from rfl]
  rw [parseInt_digits _ hne2 hall2 hns2, hval2]
  rw [Int.toNat_of_nonneg h]

theorem pyFmtInt_no_dash (w : ℕ) (n : ℤ) (h : 0 ≤ n) :
    ∀ c ∈ (pyFmtInt w n).data, c ≠ '-' := by
  unfold pyFmtInt
  rw [if_neg (not_lt.mpr h)]
  intro c hc he
  obtain ⟨hne, hall, hns, hval⟩ := natChars_spec n.toNat
  obtain ⟨hne2, hall2, hns2, hval2⟩ := padZeros_spec w (natChars n.toNat) hne hall hns hval
  have hcd : isDigitChar c = true := (List.all_eq_true.mp hall2) c hc
  rw [he] at hcd
  exact absurd hcd (by decide)

/-! ### splitDash on dash-free parts -/

theorem splitDashAux_no_dash : ∀ (xs cur : List Char), (∀ c ∈ xs, c ≠ '-') →
    splitDashAux cur xs = [cur.reverse ++ xs] := by
  intro xs
  induction xs with
  | nil => intro cur h; simp [splitDashAux]
  | cons x rest ih =>
    intro cur h
    unfold splitDashAux
    rw [if_neg (h x (List.mem_cons_self x rest))]
    rw [ih (x :: cur) (fun c hc => h c (List.mem_cons_of_mem _ hc))]
    simp

theorem splitDashAux_split : ∀ (xs cur rest : List Char), (∀ c ∈ xs, c ≠ '-') →
    splitDashAux cur (xs ++ '-' :: rest) = (cur.reverse ++ xs) :: splitDashAux [] rest := by
  intro xs
  induction xs with
  | nil =>
    intro cur rest h
    simp only [List.nil_append, splitDashAux, if_pos rfl]
    simp
  | cons x tail ih =>
    intro cur rest h
    rw [List.cons_append]
    unfold splitDashAux
    rw [if_neg (h x (List.mem_cons_self x tail))]
    rw [ih (x :: cur) rest (fun c hc => h c (List.mem_cons_of_mem _ hc))]
    simp
    cases rest <;> rfl

theorem splitDash_three (d1 d2 d3 : List Char)
    (h1 : ∀ c ∈ d1, c ≠ '-') (h2 : ∀ c ∈ d2, c ≠ '-') (h3 : ∀ c ∈ d3, c ≠ '-') :
    splitDash (d1 ++ '-' :: (d2 ++ '-' :: d3)) = [d1, d2, d3] := by
  unfold splitDash
  rw [splitDashAux_split d1 [] _ h1, splitDashAux_split d2 [] _ h2,
    splitDashAux_no_dash d3 [] h3]
  simp

/-- calendar2jd accepts every canonical "YYYY-MM-DD" string of a valid
Gregorian date on or after 1582-10-15 and returns an integer-valued Julian
date (integer JD means 12:00:00 UTC by the JD convention). -/
theorem calendar2jd_fmtDate (y m d : ℤ)
    (hGreg : y > 1582 ∨ (y = 1582 ∧ (m > 10 ∨ (m = 10 ∧ d ≥ 15))))
    (h1 : 1 ≤ m) (h2 : m ≤ 12) (h3 : 1 ≤ d) (h4 : d ≤ monthLen y m) :
    ∃ k : ℤ, calendar2jd (fmtDate y m d) = some (k : ℚ) := by
  have hy : (0 : ℤ) ≤ y := by omega
  have hdata : (fmtDate y m d).data =
      (pyFmtInt 4 y).data ++ '-' :: ((pyFmtInt 2 m).data ++ '-' :: (pyFmtInt 2 d).data) := by
    simp [fmtDate, String.data_append]
  have hparse : parse3 (fmtDate y m d) = some (y, m, d) := by
    unfold parse3
    rw [hdata, splitDash_three _ _ _ (pyFmtInt_no_dash 4 y hy)
      (pyFmtInt_no_dash 2 m (by omega)) (pyFmtInt_no_dash 2 d (by omega))]
    dsimp only
    rw [parseInt_pyFmtInt 4 y hy, parseInt_pyFmtInt 2 m (by omega),
      parseInt_pyFmtInt 2 d (by omega)]
  unfold calendar2jd
  rw [hparse]
  dsimp only
  rw [if_pos hGreg]
  obtain ⟨n, hn, -⟩ := ymd2d_yd2md_inverse y m d h1 h2 h3 h4
  rw [hn]
  have h287 : ymd2d 1582 10 15 = some 287 := by decide
  rw [h287, num_leap_eq_iter 1582 y (by omega)]
  exact ⟨2299161 + (y - 1582) * 365 + leapCountIter 1582 y + n - 287, rfl⟩

/-- Every ymd2d output satisfies the ymd2d precondition bounds. -/
theorem ymd2d_bounds (y m d n : ℤ) (h : ymd2d y m d = some n) :
    1 ≤ m ∧ m ≤ 12 ∧ 1 ≤ d ∧ d ≤ monthLen y m := by
  unfold ymd2d at h
  by_cases hc : 1 ≤ m ∧ m ≤ 12 ∧ 1 ≤ d ∧ d ≤ (monthList (is_leap y)).getD (m - 1).toNat 0
  · exact hc
  · rw [if_neg hc] at h
    exact absurd h (by simp)

/-- yd2md inverts any successful ymd2d computation. -/
theorem yd2md_of_ymd2d (y m d n : ℤ) (h : ymd2d y m d = some n) :
    yd2md y n = some (m, d) := by
  obtain ⟨h1, h2, h3, h4⟩ := ymd2d_bounds y m d n h
  obtain ⟨n2, hn2, hinv⟩ := ymd2d_yd2md_inverse y m d h1 h2 h3 h4
  rw [h] at hn2
  have heq : n = n2 := Option.some.inj hn2
  rw [heq]
  exact hinv

/-- find_twilight fails on every input: the local-noon timestamp string it
builds at search.py line 36 contains colons, and calendar2jd cannot parse
any string containing a colon, so the ValueError is raised before a single
sample is taken (for every geometry and every root-solver behaviour). -/
theorem find_twilight_none (geo : ℚ → ℚ → ℚ → ℚ × ℚ)
    (solve : List (ℚ × ℚ × ℚ) → Option (ℚ × ℚ × ℚ))
    (cd : String) (lat lon : ℚ) (rise : Bool) (N : ℕ) :
    find_twilight geo solve cd lat lon rise N = none := by
  have h := calendar2jd_timestamp_none
    ((cd ++ " ") ++ pyFmtInt 2 (12 - roundHalfEven (lon / (360 / 24)))) ":00:00.0"
    (by decide)
  simp only [find_twilight, h]
  rfl

/-- One unfolding of the scan loop on a nonempty range: the first day calls
find_twilight, whose failure propagates out of the loop uncaught. -/
theorem obsLoop_first_none (geo : ℚ → ℚ → ℚ → ℚ × ℚ)
    (solve : List (ℚ × ℚ × ℚ) → Option (ℚ × ℚ × ℚ))
    (heading lat lon : ℚ) (rise : Bool) (tol : ℚ) (N : ℕ)
    (tz : ℤ) (tz_label : String) (fuel : ℕ) (Y0 D0 Y1 D1 : ℤ)
    (window : List (String × ℚ × ℚ))
    (hcond : Y0 < Y1 ∨ (Y0 = Y1 ∧ D0 ≤ D1))
    (md : ℤ × ℤ) (hmd : yd2md Y0 D0 = some md) :
    obsLoop geo solve heading lat lon rise tol N tz tz_label
      (fuel + 1) Y0 D0 Y1 D1 window = none := by
  simp only [obsLoop, if_pos hcond, hmd, find_twilight_none]
  rfl

/-- find_obs_window propagates the failure of the first visited day: for any
parseable nonempty date range it returns the error rather than a list of
events (with the current find_twilight, every day fails). -/
theorem find_obs_window_none (geo : ℚ → ℚ → ℚ → ℚ × ℚ)
    (solve : List (ℚ × ℚ × ℚ) → Option (ℚ × ℚ × ℚ))
    (heading : ℚ) (bd ed : String) (lat lon : ℚ) (rise : Bool) (tol : ℚ) (N : ℕ)
    (b : ℤ × ℤ × ℤ) (hb : parse3 bd = some b)
    (D0 : ℤ) (hD0 : ymd2d b.1 b.2.1 b.2.2 = some D0)
    (e : ℤ × ℤ × ℤ) (he : parse3 ed = some e)
    (D1 : ℤ) (hD1 : ymd2d e.1 e.2.1 e.2.2 = some D1)
    (hne : b.1 < e.1 ∨ (b.1 = e.1 ∧ D0 ≤ D1)) :
    find_obs_window geo solve heading bd ed lat lon rise tol N = none := by
  simp only [find_obs_window, Option.bind_eq_bind, Option.some_bind, hb, hD0, he, hD1]
  obtain ⟨f, hf⟩ : ∃ f, ((e.1 - b.1).toNat + 2) * 367 = f + 1 :=
    ⟨((e.1 - b.1).toNat + 2) * 367 - 1, by omega⟩
  rw [hf]
  exact obsLoop_first_none geo solve heading lat lon rise tol N _ _ f b.1 D0 e.1 D1 []
    hne (b.2.1, b.2.2) (yd2md_of_ymd2d b.1 b.2.1 b.2.2 D0 hD0)

unseal Rat.add Rat.sub Rat.mul Rat.inv Rat.ofScientific in
/-- On the whole day starting 1684-12-31 00:00 UT, the year estimate of
jd2calendar lands on 1685 while the date still lies in 1684, the correction
branch cannot repair an overshoot, and the yd2md precondition d ≥ 0 fails:
jd2calendar raises for every Julian date of that civil day. -/
theorem jd2calendar_1684_dec31_none (jd : ℚ)
    (h1 : 2336493.5 ≤ jd) (h2 : jd < 2336494.5) :
    jd2calendar jd = none := by
  have hb : (2299160.5 : ℚ) ≤ 2336493.5 := by norm_num
  have hnlt : ¬ jd < 2299160.5 := by linarith
  have hfloor : ⌊jd - 2299160.5⌋ = 37333 := by
    rw [Int.floor_eq_iff]
    push_cast
    constructor <;> linarith
  simp only [jd2calendar]
  rw [if_neg hnlt, hfloor]
  rfl

/-! ### Claim theorems -/

unseal Rat.add Rat.sub Rat.mul Rat.inv Rat.ofScientific in
/-- Claim C1 (code_bug evaluation): the calendar round trip fails on the code.
jd2calendar produces a timestamp string with a time-of-day component, and
calendar2jd raises while parsing every such string, so
calendar2jd(jd2calendar(t)) raises instead of returning t; shown at the
valid Julian date t = 2458850.0 (noon, 2020-01-01). -/
theorem claim_C1_roundtrip_fails :
    jd2calendar 2458850 = some "2020-01-01 12:00:00.0" ∧
      calendar2jd "2020-01-01 12:00:00.0" = none := by
  exact ⟨by decide, by decide⟩

/-- Claim C2 (counterexample): a day on which find_twilight fails does abort
the whole scan.  With any geometry oracle and a root solver reporting no
crossing, find_twilight on 2025-06-01 at latitude 70 fails, and
find_obs_window over the nonempty range 2025-06-01 to 2025-06-03 returns the
propagated failure instead of the events of the remaining days. -/
theorem claim_C2_counterexample :
    find_twilight (fun _ _ _ => (0, 0)) (fun _ => none) "2025-06-01" 70 0 false 100
        = none ∧
      find_obs_window (fun _ _ _ => (0, 0)) (fun _ => none) 270 "2025-06-01"
        "2025-06-03" 70 0 false (1 / 2) 100 = none := by
  constructor
  · exact find_twilight_none _ _ _ _ _ _ _
  · exact find_obs_window_none _ _ _ _ _ _ _ _ _ _ (2025, 6, 1) (by decide) 151 (by decide)
      (2025, 6, 3) (by decide) 153 (by decide) (by norm_num)

/-- Claim C2 (amended): find_obs_window has no handler around find_twilight;
its failure on the first visited day propagates and aborts the scan with no
events, for every oracle, location and parseable nonempty date range (and
with the current code find_twilight fails on every day, at the local-noon
timestamp parse). -/
theorem claim_C2_amended (geo : ℚ → ℚ → ℚ → ℚ × ℚ)
    (solve : List (ℚ × ℚ × ℚ) → Option (ℚ × ℚ × ℚ))
    (heading : ℚ) (bd ed : String) (lat lon : ℚ) (rise : Bool) (tol : ℚ) (N : ℕ)
    (b : ℤ × ℤ × ℤ) (hb : parse3 bd = some b)
    (D0 : ℤ) (hD0 : ymd2d b.1 b.2.1 b.2.2 = some D0)
    (e : ℤ × ℤ × ℤ) (he : parse3 ed = some e)
    (D1 : ℤ) (hD1 : ymd2d e.1 e.2.1 e.2.2 = some D1)
    (hne : b.1 < e.1 ∨ (b.1 = e.1 ∧ D0 ≤ D1)) :
    find_obs_window geo solve heading bd ed lat lon rise tol N = none :=
  find_obs_window_none geo solve heading bd ed lat lon rise tol N b hb D0 hD0 e he D1 hD1 hne

/-- Witness for the amended claim C2 at a concrete range. -/
theorem claim_C2_amended_witness :
    find_obs_window (fun _ _ _ => (0, 0)) (fun _ => some (0, 0, 0)) 289 "2025-01-01"
      "2025-01-05" 32.8595 (-117.2124) false (1 / 2) 30 = none :=
  claim_C2_amended (fun _ _ _ => (0, 0)) (fun _ => some (0, 0, 0)) 289 "2025-01-01"
    "2025-01-05" 32.8595 (-117.2124) false (1 / 2) 30 (2025, 1, 1) (by decide) 0 (by decide)
    (2025, 1, 5) (by decide) 4 (by decide) (by norm_num)

/-- Claim C3 (code_bug evaluation): the sampling step of find_twilight is not
well defined over the actual return value of sun_location.  sun_location
returns the two-tuple (altitude, azimuth) at solar_motion.py line 221, while
search.py line 49 unpacks three values (alt_, azi[i], angular) from it, which
raises ValueError for every sample; no upper-limb altitude alt_ + angular is
ever computed. -/
theorem claim_C3_sample_unpack :
    find_twilight_sample 33.774861 180.00075 = none ∧
      ∀ altitude azimuth : ℚ, find_twilight_sample altitude azimuth = none := by
  exact ⟨rfl, fun _ _ => rfl⟩

/-- Claim C5 (code_bug evaluation): the day counter of find_obs_window skips
January 1 at every year boundary.  The advance of search.py lines 102 to 105
reduces the day counter modulo 364 + leap instead of the year length
365 + leap, so the value after the last day of any year is 1 (365 mod 364
after a common year, 366 mod 365 after a leap year), never the day 0 the
claim requires: from 2023-12-31 it lands on (2024, 1) and from 2024-12-31 on
(2025, 1), while the in-year advance is correct, and the visited-date
sequence over the range 2023-12-31 to 2024-01-02 omits (2024, 0), January 1.
(Independently, the scan aborts on its first day because find_twilight always
raises; see the claim C2 theorems.) -/
theorem claim_C5_day_rollover :
    day_advance 2023 364 = (2024, 1) ∧
      day_advance 2024 365 = (2025, 1) ∧
      day_advance 2024 364 = (2024, 365) ∧
      visitedDays 800 2023 364 2024 1 = [(2023, 364), (2024, 1)] := by
  decide

unseal Rat.add Rat.sub Rat.mul Rat.inv Rat.ofScientific in
/-- Claim C6 (code_bug evaluation): the estimate-then-correct step of
jd2calendar is not sufficient.  The year estimated from the average Gregorian
year length OVERSHOOTS the true calendar year on 1684-12-31 (and on the last
day of several leap years of every 400-year cycle): the one-sided correction
only repairs undershoot, the day-of-year offset becomes -1, and the yd2md
precondition d at least 0 fails, so jd2calendar raises on the whole civil day
2336493.5 to 2336494.5 - among them JD 2336494.0, which calendar2jd itself
returns for "1684-12-31". -/
theorem claim_C6_estimate_overshoots :
    calendar2jd "1684-12-31" = some 2336494 ∧
      jd2calendar 2336494 = none ∧
      (∀ jd : ℚ, 2336493.5 ≤ jd → jd < 2336494.5 → jd2calendar jd = none) := by
  refine ⟨by decide, ?_, jd2calendar_1684_dec31_none⟩
  exact jd2calendar_1684_dec31_none 2336494 (by norm_num) (by norm_num)

/-- Witness for claim C6 at the concrete failing Julian date. -/
theorem claim_C6_witness :
    (2336493.5 : ℚ) ≤ 2336494 ∧ (2336494 : ℚ) < 2336494.5 ∧
      jd2calendar 2336494 = none :=
  ⟨by norm_num, by norm_num,
    claim_C6_estimate_overshoots.2.2 2336494 (by norm_num) (by norm_num)⟩

/-- Claim C7: the closed-form leap counting of num_leap agrees with direct
iteration of the Gregorian leap rule on every half-open year interval
[y1, y2) with y1 at most y2, and matches the quoted values, including the
century boundaries (1900 not leap, 2000 leap). -/
theorem claim_C7_num_leap_exact :
    (∀ y1 y2 : ℤ, y1 ≤ y2 → num_leap y1 y2 = some (leapCountIter y1 y2)) ∧
      num_leap 2020 2021 = some 1 ∧ num_leap 1896 2005 = some 27 ∧
      is_leap 1900 = false ∧ is_leap 2000 = true := by
  exact ⟨num_leap_eq_iter, by decide, by decide, by decide, by decide⟩

/-- Witness for claim C7 at a concrete year pair. -/
theorem claim_C7_witness :
    num_leap 2020 2021 = some (leapCountIter 2020 2021) ∧
      leapCountIter 2020 2021 = 1 :=
  ⟨claim_C7_num_leap_exact.1 2020 2021 (by norm_num), by decide⟩

/-- Claim C8: yd2md inverts ymd2d on every valid (year, month, day), and for
nonnegative day-of-year inputs yd2md fails exactly when the day-of-year is at
least the number of days in the year. -/
theorem claim_C8_inverse :
    (∀ y m d : ℤ, 1 ≤ m → m ≤ 12 → 1 ≤ d → d ≤ monthLen y m →
        ∃ n, ymd2d y m d = some n ∧ yd2md y n = some (m, d)) ∧
      (∀ y d : ℤ, 0 ≤ d →
        (yd2md y d = none ↔ 365 + (if is_leap y then 1 else 0) ≤ d)) :=
  ⟨ymd2d_yd2md_inverse, yd2md_none_iff⟩

/-- Witness for claim C8 at a leap day and at a first out-of-range day. -/
theorem claim_C8_witness :
    (∃ n, ymd2d 2020 2 29 = some n ∧ yd2md 2020 n = some (2, 29)) ∧
      (yd2md 2021 365 = none ↔ 365 + (if is_leap 2021 then 1 else 0) ≤ (365 : ℤ)) :=
  ⟨claim_C8_inverse.1 2020 2 29 (by norm_num) (by norm_num) (by norm_num) (by decide),
    claim_C8_inverse.2 2021 365 (by norm_num)⟩

/-- Claim C9 (counterexample): sun_location is not total; it never produces
any altitude or azimuth.  Evaluating the module constant EQUINOX_DATE at
solar_motion.py line 37 calls calendar2jd on a timestamp string, which raises
at parsing, so importing the module fails and every sun_location call (which
needs EQUINOX_DATE through rot_axis and zenith) fails with it - shown at a
concrete (jd, lat, lon) with a concrete geometry oracle. -/
theorem claim_C9_counterexample :
    EQUINOX_DATE = none ∧
      sun_location (fun _ _ _ => (0, 0)) 2460000 32.8595 (-117.2124) = none := by
  exact ⟨by decide, by decide⟩

/-- Claim C9 (amended): sun_location produces no output at all - for every
geometric oracle and every input, its evaluation fails on the unparseable
EQUINOX_DATE constant, so in particular no altitude or azimuth (in range or
otherwise) is ever returned and the range contract is vacuous. -/
theorem claim_C9_amended (geo : ℚ → ℚ → ℚ → ℚ × ℚ) (jd lat lon : ℚ) :
    sun_location geo jd lat lon = none := by
  have h : EQUINOX_DATE = none := by decide
  simp only [sun_location, Option.bind_eq_bind, h, Option.none_bind]

/-- Claim C10: calendar2jd accepts exactly the bare date strings.  Any string
containing a colon (in particular any "YYYY-MM-DD HH:MM:SS.S" timestamp, and
the very strings the repository passes at solar_motion.py lines 37 and 41 and
the local-noon string find_twilight builds at search.py line 36) is rejected
at parsing, while every canonical date string of a valid Gregorian date on or
after 1582-10-15 is converted to an integer-valued Julian date, the JD of
12:00:00 UTC of that date. -/
theorem claim_C10_calendar2jd_contract :
    (∀ s : String, ':' ∈ s.data → calendar2jd s = none) ∧
      (∀ y m d : ℤ, (y > 1582 ∨ (y = 1582 ∧ (m > 10 ∨ (m = 10 ∧ d ≥ 15)))) →
        1 ≤ m → m ≤ 12 → 1 ≤ d → d ≤ monthLen y m →
        ∃ k : ℤ, calendar2jd (fmtDate y m d) = some (k : ℚ)) ∧
      calendar2jd "2020-03-20 03:49:00.0" = none ∧
      calendar2jd "2020-03-20 12:07:00.0" = none ∧
      (∀ (cd : String) (H : ℤ),
        calendar2jd (cd ++ " " ++ pyFmtInt 2 H ++ ":00:00.0") = none) := by
  refine ⟨calendar2jd_colon, ?_, by decide, by decide, ?_⟩
  · intro y m d hGreg h1 h2 h3 h4
    exact calendar2jd_fmtDate y m d hGreg h1 h2 h3 h4
  · intro cd H
    exact calendar2jd_timestamp_none ((cd ++ " ") ++ pyFmtInt 2 H) ":00:00.0" (by decide)

/-- Witness for claim C10: acceptance of a canonical date string and
rejection of a repository-style timestamp string. -/
theorem claim_C10_witness :
    (∃ k : ℤ, calendar2jd (fmtDate 2020 3 20) = some (k : ℚ)) ∧
      calendar2jd ("2025-01-01" ++ " " ++ pyFmtInt 2 4 ++ ":00:00.0") = none :=
  ⟨claim_C10_calendar2jd_contract.2.1 2020 3 20 (by norm_num) (by norm_num) (by norm_num)
      (by norm_num) (by decide),
    claim_C10_calendar2jd_contract.2.2.2.2 "2025-01-01" 4⟩

/-- Witness for claim C3 at a concrete sample value. -/
theorem claim_C3_witness : find_twilight_sample 10 20 = none :=
  claim_C3_sample_unpack.2 10 20

/-- Witness for the amended claim C9 at a concrete query. -/
theorem claim_C9_witness :
    sun_location (fun _ _ _ => (1, 2)) 2451545 0 0 = none :=
  claim_C9_amended (fun _ _ _ => (1, 2)) 2451545 0 0
